import Mathlib

/-!
# Hybrid search edge function: filter validation, canonicalisation and request handling

A shallow embedding of `Supabase/Edge Function/Hybrid Search With Meta Data Filtering.js`.

* `JVal` models the JavaScript values the function handles (the result of `req.json()`,
  plus `undefined` and the one inherited function value the code can read).
* Property reads are `getProp`, which throws a `TypeError` on `null`/`undefined`
  exactly as `x.p` does; `x?.p` is `optProp`.
* `validateFilterSchema` and `transformFilterSchema` follow the source statement by
  statement and return in `Except JsError`, so that a thrown error is a value.
* `serve` is the `Deno.serve` handler with the two collaborators (embedding provider
  and query engine) passed in as functions and every collaborator call logged.
-/

namespace HybridSearch

/-! ## JavaScript values -/

/-- JavaScript values reachable from a parsed JSON request body. Numbers are kept as
integers: the code only tests a number for truthiness and passes it on. An object is the
list of its own properties, a name being looked up at its first occurrence. `fn` stands
for an inherited builtin method (reading `filter` on an array gives
`Array.prototype.filter`). -/
inductive JVal where
  | undefined : JVal
  | null : JVal
  | bool (b : Bool) : JVal
  | num (n : Int) : JVal
  | str (s : String) : JVal
  | arr (items : List JVal) : JVal
  | obj (props : List (String × JVal)) : JVal
  | fn (name : String) : JVal

/-- Errors a JavaScript evaluation can throw. -/
inductive JsError where
  | typeError : JsError
  | thrown (msg : String) : JsError
  deriving DecidableEq, Repr

/-- JavaScript truthiness (`ToBoolean`). -/
def truthy : JVal → Bool
  | .undefined => false
  | .null => false
  | .bool b => b
  | .num n => decide (n ≠ 0)
  | .str s => decide (s ≠ "")
  | .arr _ => true
  | .obj _ => true
  | .fn _ => true

/-- The test `typeof v === 'object'` (true of `null`, arrays and objects). -/
def typeofObject : JVal → Bool
  | .null => true
  | .arr _ => true
  | .obj _ => true
  | _ => false

/-- The builtin `Array.isArray`. -/
def isArray : JVal → Bool
  | .arr _ => true
  | _ => false

/-- Own-property lookup in an object's property list; `undefined` when absent. -/
def lookupProp : List (String × JVal) → String → JVal
  | [], _ => .undefined
  | (k, v) :: rest, key => if k = key then v else lookupProp rest key

/-- The property read `v.key`, for the property names this program reads
(`filters`, `filter`, `field`, `operator`, `and`, `or`, the request parameters, the
document columns, `data`, `embedding` and `message`). It throws on `null` and
`undefined`; an object yields its own property; an array inherits `filter` from
`Array.prototype`; every other read is `undefined`. -/
def getProp (v : JVal) (key : String) : Except JsError JVal :=
  match v with
  | .undefined => .error .typeError
  | .null => .error .typeError
  | .obj props => .ok (lookupProp props key)
  | .arr _ => if key = "filter" then .ok (.fn "filter") else .ok .undefined
  | _ => .ok .undefined

/-- The optional read `v?.key`: `undefined` when `v` is `null` or `undefined`. -/
def optProp (v : JVal) (key : String) : Except JsError JVal :=
  match v with
  | .undefined => .ok .undefined
  | .null => .ok .undefined
  | w => getProp w key

/-- The expression `a && b`: the value of `a` when it is falsy, else the value of `b`. -/
def andThen (a b : Except JsError JVal) : Except JsError JVal :=
  match a with
  | .error e => .error e
  | .ok x => if truthy x then b else .ok x

/-- The expression `a || b`: the value of `a` when it is truthy, else the value of `b`. -/
def orElse (a b : Except JsError JVal) : Except JsError JVal :=
  match a with
  | .error e => .error e
  | .ok x => if truthy x then .ok x else b

/-- Whether an object has an own property of that name. -/
def hasOwnProp : List (String × JVal) → String → Bool
  | [], _ => false
  | (k, _) :: rest, key => decide (k = key) || hasOwnProp rest key

mutual
/-- Whether the string conversion `ToString(v)` of a template literal throws. A parsed
object with an own `toString` property shadows `Object.prototype.toString` with a value
that is not callable, and the inherited `valueOf` returns the object itself, so the
conversion throws a `TypeError`; without it the object prints as `[object Object]`. An
array prints through `join`, which converts every element other than `null` and
`undefined`. Primitives and functions always convert. -/
def toStringThrows : JVal → Bool
  | .arr items => anyToStringThrows items
  | .obj props => hasOwnProp props "toString"
  | _ => false
/-- Whether the conversion of some element of an array throws. -/
def anyToStringThrows : List JVal → Bool
  | [] => false
  | x :: rest => toStringThrows x || anyToStringThrows rest
end

/-- The builtin `Array.prototype.includes` on an array of string literals: only a string
equal to one of them is included. -/
def includes (xs : List String) (v : JVal) : Bool :=
  match v with
  | .str s => decide (s ∈ xs)
  | _ => false

/-! ## Filter validation (source lines 7-61) -/

/-- The `validOperators` array, identical in both branches of the validator. -/
def validOperators : List String :=
  ["eq", "neq", "gt", "gte", "lt", "lte", "like", "ilike", "in", "contains", "is", "not",
   "fts", "match"]

/-- The inner loop `for (const nested of nestedFilters)`: `ok false` is the early
`return false`, `ok true` means the loop ran to its end. -/
def validateNested : List JVal → Except JsError Bool
  | [] => .ok true
  | nested :: rest =>
    match getProp nested "field" with
    | .error e => .error e
    | .ok f =>
      if !truthy f then .ok false
      else
        match getProp nested "operator" with
        | .error e => .error e
        | .ok o =>
          if !truthy o then .ok false
          else if !includes validOperators o then .ok false
          else validateNested rest

/-- The outer loop `for (const filterItem of filter.filters)`: `ok false` is an early
`return false`, `ok true` means the loop ran to its end. The group test
`filterItem.and || filterItem.or` is evaluated twice in the source (lines 32 and 33), with
the same value. -/
def validateItems : List JVal → Except JsError Bool
  | [] => .ok true
  | filterItem :: rest =>
    match andThen (getProp filterItem "field") (getProp filterItem "operator") with
    | .error e => .error e
    | .ok isSimple =>
      if truthy isSimple then
        match getProp filterItem "operator" with
        | .error e => .error e
        | .ok o => if !includes validOperators o then .ok false else validateItems rest
      else
        match orElse (getProp filterItem "and") (getProp filterItem "or") with
        | .error e => .error e
        | .ok nestedFilters =>
          if truthy nestedFilters then
            match nestedFilters with
            | .arr ns =>
              match validateNested ns with
              | .error e => .error e
              | .ok false => .ok false
              | .ok true => validateItems rest
            | _ => .ok false
          else .ok false

/-- The function `validateFilterSchema(filter)`. -/
def validateFilterSchema (filter : JVal) : Except JsError Bool :=
  if !truthy filter || !typeofObject filter then .ok true
  else
    match getProp filter "filters" with
    | .error e => .error e
    | .ok fs =>
      if truthy fs && isArray fs then
        match fs with
        | .arr items => validateItems items
        | _ => .ok true
      else .ok true

/-! ## Filter canonicalisation (source lines 63-77) -/

/-- The function `transformFilterSchema(inputFilter)`. -/
def transformFilterSchema (inputFilter : JVal) : Except JsError JVal :=
  if !truthy inputFilter then .ok (.obj [])
  else
    match getProp inputFilter "filters" with
    | .error e => .error e
    | .ok fs =>
      if !truthy fs then .ok inputFilter
      else
        match getProp inputFilter "filter" with
        | .error e => .error e
        | .ok legacy =>
          match orElse (optProp legacy "filters") (.ok fs) with
          | .error e => .error e
          | .ok filtersArray =>
            if !isArray filtersArray then .ok inputFilter
            else .ok (.obj [("filters", filtersArray)])

/-! ## The request handler (source lines 78-221) -/

/-- The destructured request parameters, after defaults. -/
structure SearchParams where
  query : JVal
  metadata_filter : JVal
  match_count : JVal
  full_text_weight : JVal
  semantic_weight : JVal
  rrf_k : JVal
  distance_method : JVal

/-- The argument object of `supabase.rpc('search_documents_hybrid', ...)`. -/
structure RpcArgs where
  query_text : JVal
  query_embedding : JVal
  match_count : JVal
  metadata_filter : JVal
  full_text_weight : JVal
  semantic_weight : JVal
  rrf_k : JVal
  distance_method : JVal

/-- The `{ data, error }` pair the query engine resolves to. -/
structure RpcResult where
  data : JVal
  error : JVal

/-- The two external collaborators: `openai.embeddings.create` (which may throw; a throw
of the client construction of line 128 counts as one) and `supabase.rpc`, which resolves
to a `{ data, error }` pair on a client that line 139 could construct. -/
structure Collaborators where
  embeddingsCreate : JVal → Except JsError JVal
  rpc : RpcArgs → RpcResult

/-- A logged collaborator call. -/
inductive Call where
  | embedding (input : JVal) : Call
  | rpc (args : RpcArgs) : Call

/-- The `search_scores` object of a result entry. -/
structure SearchScores where
  keyword_score : JVal
  keyword_rank : JVal
  similarity_score : JVal
  semantic_rank : JVal
  rrf_score : JVal

/-- One entry of `enhancedResults`. -/
structure EnhancedResult where
  id : JVal
  content : JVal
  metadata : JVal
  created_at : JVal
  search_scores : SearchScores

/-- The `search_params` echo of a successful response. -/
structure EchoParams where
  query : JVal
  original_filter : JVal
  transformed_filter : JVal
  match_count : JVal
  full_text_weight : JVal
  semantic_weight : JVal
  rrf_k : JVal
  distance_method : JVal

/-- The `summary` object of a successful response. -/
structure Summary where
  total_results : Nat
  has_keyword_matches : Bool
  has_semantic_matches : Bool
  distance_method_used : JVal
  filter_applied : Bool

/-- The JSON payload of a response, one constructor per `new Response(...)` in the
source. `invalidDistanceMethod` records the value whose string form the message of
line 106 interpolates. -/
inductive Payload where
  | missingQuery : Payload
  | invalidDistanceMethod (distance_method : JVal) : Payload
  | invalidFilter : Payload
  | searchFailed (details original_filter transformed_filter : JVal) : Payload
  | internalError (error : JsError) : Payload
  | success (results : List EnhancedResult) (search_params : EchoParams)
      (summary : Summary) : Payload

/-- An HTTP response: status code and payload. -/
structure Response where
  status : Nat
  payload : Payload

/-- What one request does: the response and the collaborator calls made, in order. -/
structure Outcome where
  response : Response
  calls : List Call

/-- A destructuring default `= d`: it applies exactly when the property is `undefined`. -/
def withDefault (v d : JVal) : JVal :=
  match v with
  | .undefined => d
  | w => w

/-- The destructuring of `requestBody` (line 83) followed by the `filter` override
(lines 85-87). -/
def readParams (requestBody : JVal) : Except JsError SearchParams := do
  let query ← getProp requestBody "query"
  let metadata_filter ← getProp requestBody "metadata_filter"
  let match_count ← getProp requestBody "match_count"
  let full_text_weight ← getProp requestBody "full_text_weight"
  let semantic_weight ← getProp requestBody "semantic_weight"
  let rrf_k ← getProp requestBody "rrf_k"
  let distance_method ← getProp requestBody "distance_method"
  let filter ← getProp requestBody "filter"
  pure {
    query := query
    metadata_filter := if truthy filter then filter else withDefault metadata_filter (.obj [])
    match_count := withDefault match_count (.num 10)
    full_text_weight := withDefault full_text_weight (.num 1)
    semantic_weight := withDefault semantic_weight (.num 1)
    rrf_k := withDefault rrf_k (.num 50)
    distance_method := withDefault distance_method (.str "cosine") }

/-- The `validDistanceMethods` array. -/
def validDistanceMethods : List String := ["cosine", "euclidean", "inner_product"]

/-- The destructuring `const [{ embedding }] = embeddingResponse.data` (line 137). -/
def firstEmbedding (embeddingResponse : JVal) : Except JsError JVal :=
  match getProp embeddingResponse "data" with
  | .error e => .error e
  | .ok (.arr (first :: _)) => getProp first "embedding"
  | .ok (.arr []) => .error .typeError
  | .ok (.str s) => if s = "" then .error .typeError else .ok .undefined
  | .ok _ => .error .typeError

/-- The callback of `documents.map` (lines 168-183). -/
def enhance (doc : JVal) : Except JsError EnhancedResult := do
  let id ← getProp doc "id"
  let content ← getProp doc "content"
  let metadata ← getProp doc "metadata"
  let created_at ← getProp doc "created_at"
  let keyword_score ← getProp doc "keyword_score"
  let keyword_rank ← getProp doc "keyword_rank"
  let similarity_score ← getProp doc "similarity_score"
  let semantic_rank ← getProp doc "semantic_rank"
  let rrf_score ← getProp doc "rrf_score"
  pure {
    id := id
    content := content
    metadata := metadata
    created_at := created_at
    search_scores := {
      keyword_score := keyword_score
      keyword_rank := keyword_rank
      similarity_score := similarity_score
      semantic_rank := semantic_rank
      rrf_score := rrf_score } }

/-- The callback applied to each element in order, as `Array.prototype.map` does; the
first throw aborts the whole map. -/
def enhanceEach : List JVal → Except JsError (List EnhancedResult)
  | [] => .ok []
  | doc :: rest =>
    match enhance doc with
    | .error e => .error e
    | .ok r =>
      match enhanceEach rest with
      | .error e => .error e
      | .ok rs => .ok (r :: rs)

/-- The call `documents.map(...)`: it throws unless `documents` is an array. -/
def enhanceAll (documents : JVal) : Except JsError (List EnhancedResult) :=
  match documents with
  | .arr docs => enhanceEach docs
  | _ => .error .typeError

/-- The test `v !== null`. -/
def notNull : JVal → Bool
  | .null => false
  | _ => true

/-- The test `Object.keys(v).length > 0`; `Object.keys` throws on `null` and
`undefined`. -/
def hasOwnKeys : JVal → Except JsError Bool
  | .undefined => .error .typeError
  | .null => .error .typeError
  | .obj props => .ok (!props.isEmpty)
  | .arr items => .ok (!items.isEmpty)
  | .str s => .ok (decide (s ≠ ""))
  | _ => .ok false

/-- A 400 response. -/
def badRequest (p : Payload) : Response := { status := 400, payload := p }

/-- The catch-all 500 response of the `catch` block (lines 208-220). -/
def internalServerError (e : JsError) : Response :=
  { status := 500, payload := .internalError e }

/-- The argument object built at lines 141-150. -/
def rpcArgs (p : SearchParams) (embedding transformedFilter : JVal) : RpcArgs where
  query_text := p.query
  query_embedding := embedding
  match_count := p.match_count
  metadata_filter := transformedFilter
  full_text_weight := p.full_text_weight
  semantic_weight := p.semantic_weight
  rrf_k := p.rrf_k
  distance_method := p.distance_method

/-- The `search_params` object built at lines 186-195. -/
def echoParams (p : SearchParams) (transformedFilter : JVal) : EchoParams where
  query := p.query
  original_filter := p.metadata_filter
  transformed_filter := transformedFilter
  match_count := p.match_count
  full_text_weight := p.full_text_weight
  semantic_weight := p.semantic_weight
  rrf_k := p.rrf_k
  distance_method := p.distance_method

/-- The `summary` object built at lines 196-202. -/
def summarise (p : SearchParams) (enhancedResults : List EnhancedResult)
    (filterApplied : Bool) : Summary where
  total_results := enhancedResults.length
  has_keyword_matches := enhancedResults.any fun r => notNull r.search_scores.keyword_score
  has_semantic_matches :=
    enhancedResults.any fun r => notNull r.search_scores.similarity_score
  distance_method_used := p.distance_method
  filter_applied := filterApplied

/-- The handler passed to `Deno.serve`, applied to the parsed request body. Every throw
inside the `try` block ends in the catch-all 500 response; that includes the string
conversion of `distance_method` in the template literal of line 106. -/
def serve (c : Collaborators) (requestBody : JVal) : Outcome :=
  match readParams requestBody with
  | .error e => ⟨internalServerError e, []⟩
  | .ok p =>
    if !truthy p.query then ⟨badRequest .missingQuery, []⟩
    else if !includes validDistanceMethods p.distance_method then
      if toStringThrows p.distance_method then ⟨internalServerError .typeError, []⟩
      else ⟨badRequest (.invalidDistanceMethod p.distance_method), []⟩
    else
      match validateFilterSchema p.metadata_filter with
      | .error e => ⟨internalServerError e, []⟩
      | .ok false => ⟨badRequest .invalidFilter, []⟩
      | .ok true =>
        match transformFilterSchema p.metadata_filter with
        | .error e => ⟨internalServerError e, []⟩
        | .ok transformedFilter =>
          match (c.embeddingsCreate p.query).bind firstEmbedding with
          | .error e => ⟨internalServerError e, [.embedding p.query]⟩
          | .ok embedding =>
            let args := rpcArgs p embedding transformedFilter
            let r := c.rpc args
            let calls := [Call.embedding p.query, Call.rpc args]
            if truthy r.error then
              match getProp r.error "message" with
              | .error e => ⟨internalServerError e, calls⟩
              | .ok details =>
                ⟨{ status := 500,
                   payload := .searchFailed details p.metadata_filter transformedFilter },
                 calls⟩
            else
              match enhanceAll r.data, hasOwnKeys transformedFilter with
              | .error e, _ => ⟨internalServerError e, calls⟩
              | .ok _, .error e => ⟨internalServerError e, calls⟩
              | .ok enhancedResults, .ok filterApplied =>
                ⟨{ status := 200,
                   payload := .success enhancedResults (echoParams p transformedFilter)
                     (summarise p enhancedResults filterApplied) },
                 calls⟩

/-! ## Sample values used in evaluations -/

/-- The condition `{field: "status", operator: "eq", value: "x"}`. -/
def okCondition : JVal :=
  .obj [("field", .str "status"), ("operator", .str "eq"), ("value", .str "x")]

/-- The condition `{field: "status", operator: "bogus", value: "x"}` of the spec's
scenario. -/
def bogusCondition : JVal :=
  .obj [("field", .str "status"), ("operator", .str "bogus"), ("value", .str "x")]

/-- The current shape `{filters: s}`. -/
def currentShape (s : List JVal) : JVal := .obj [("filters", .arr s)]

/-- The legacy shape `{filter: {filters: s}}`. -/
def legacyShape (s : List JVal) : JVal := .obj [("filter", .obj [("filters", .arr s)])]

/-! ## Collaborators and requests used in evaluations -/

/-- A concrete pair of collaborators: the embedding provider answers with one embedding,
the query engine with the given documents and no error. -/
def engineReturning (docs : List JVal) : Collaborators where
  embeddingsCreate := fun _ => .ok (.obj [("data", .arr [.obj [("embedding", .arr [])]])])
  rpc := fun _ => { data := .arr docs, error := .null }

/-- The request body `{query: q, filter: f}`. -/
def requestWithFilter (q : String) (f : JVal) : JVal :=
  .obj [("query", .str q), ("filter", f)]

/-- The `metadata_filter` arguments of the logged query-engine calls. -/
def engineFilters : List Call → List JVal
  | [] => []
  | .rpc args :: rest => args.metadata_filter :: engineFilters rest
  | .embedding _ :: rest => engineFilters rest

/-! ## Validated content of a canonical filter -/

/-- A condition in the sense of the validator: `field` is present (truthy) and `operator`
is one of the fixed operators. -/
def isValidCondition (m : JVal) : Bool :=
  match getProp m "field", getProp m "operator" with
  | .ok f, .ok o => truthy f && includes validOperators o
  | _, _ => false

/-- A list-valued property all of whose members are valid conditions; an absent
property passes. -/
def listOfValidConditions (v : JVal) : Bool :=
  match v with
  | .undefined => true
  | .arr ms => ms.all isValidCondition
  | _ => false

/-- An and/or group all of whose members are valid conditions. -/
def isValidGroup (m : JVal) : Bool :=
  match getProp m "and", getProp m "or" with
  | .ok a, .ok r =>
    (truthy a || truthy r) && listOfValidConditions a && listOfValidConditions r
  | _, _ => false

/-- The canonical filter holds only validated content: when it has a `filters` sequence,
every member is a valid condition or a valid group. -/
def validatedContent (canonical : JVal) : Bool :=
  match getProp canonical "filters" with
  | .ok (.arr ms) => ms.all fun m => isValidCondition m || isValidGroup m
  | _ => true

/-- The expression `{filters: [ok], filter: {filters: [bogus]}}`: a valid top-level
list together with a legacy list holding an unknown operator. -/
def bothShapes : JVal :=
  .obj [("filters", .arr [okCondition]), ("filter", .obj [("filters", .arr [bogusCondition])])]

/-! ## A group carrying both lists -/

/-- The group `{and: [ok], or: [ok]}` carrying both lists. -/
def bothListsGroup : JVal :=
  .obj [("and", .arr [okCondition]), ("or", .arr [okCondition])]

/-! ## Well-formed expressions of the data model -/

/-- A `FilterCondition` of the data model, following the spec's words: an object with a
non-empty string `field` and an `operator` from the fixed set; `value` and any further
property are unconstrained. -/
def IsFilterCondition (v : JVal) : Prop :=
  ∃ props f o, v = .obj props ∧ lookupProp props "field" = .str f ∧ f ≠ "" ∧
    lookupProp props "operator" = .str o ∧ o ∈ validOperators

/-- The shape of a `FilterGroup`, following the spec's words: an object without `field`
and `operator` that has exactly one of `and`/`or`, a list, whose members satisfy `P`. -/
def IsGroupOf (P : JVal → Prop) (v : JVal) : Prop :=
  ∃ props ms, v = .obj props ∧
    lookupProp props "field" = .undefined ∧ lookupProp props "operator" = .undefined ∧
    ((lookupProp props "and" = .arr ms ∧ lookupProp props "or" = .undefined) ∨
     (lookupProp props "or" = .arr ms ∧ lookupProp props "and" = .undefined)) ∧
    ∀ m ∈ ms, P m

/-- A member of the data model: a `FilterCondition`, or a `FilterGroup` whose members are
again members, to any depth. -/
inductive WellFormedMember : JVal → Prop where
  | condition (v : JVal) : IsFilterCondition v → WellFormedMember v
  | andGroup (props : List (String × JVal)) (ms : List JVal) :
      lookupProp props "field" = .undefined → lookupProp props "operator" = .undefined →
      lookupProp props "and" = .arr ms → lookupProp props "or" = .undefined →
      (∀ m ∈ ms, WellFormedMember m) → WellFormedMember (.obj props)
  | orGroup (props : List (String × JVal)) (ms : List JVal) :
      lookupProp props "field" = .undefined → lookupProp props "operator" = .undefined →
      lookupProp props "or" = .arr ms → lookupProp props "and" = .undefined →
      (∀ m ∈ ms, WellFormedMember m) → WellFormedMember (.obj props)

/-- A `FilterExpression` of the data model: `{}` or `{filters: s}` with every member of
`s` well formed. -/
def WellFormedExpression (e : JVal) : Prop :=
  e = .obj [] ∨ ∃ s, e = currentShape s ∧ ∀ m ∈ s, WellFormedMember m

/-- The expressions the validator accepts among the well-formed ones: `{}` or
`{filters: s}` where each member is a `FilterCondition` or a group of
`FilterCondition`s (one level of nesting). -/
def FlatExpression (e : JVal) : Prop :=
  e = .obj [] ∨
    ∃ s, e = currentShape s ∧ ∀ m ∈ s, IsFilterCondition m ∨ IsGroupOf IsFilterCondition m

/-- The expression `{filters: [{and: [{or: [ok]}]}]}`: a group inside a group. -/
def nestedGroups : JVal :=
  currentShape [.obj [("and", .arr [.obj [("or", .arr [okCondition])]])]]

/-! ## Members without `null`, and the verdict on a member -/

/-- Neither `null` nor `undefined`. -/
def nonNullish : JVal → Bool
  | .null => false
  | .undefined => false
  | _ => true

/-- A list-valued property without `null` members; any other value passes. -/
def listNullFree (v : JVal) : Bool :=
  match v with
  | .arr ns => ns.all nonNullish
  | _ => true

/-- A member that is not `null` and whose `and`/`or` lists hold no `null`. -/
def nullFree (m : JVal) : Bool :=
  match getProp m "and", getProp m "or" with
  | .ok a, .ok r => listNullFree a && listNullFree r
  | _, _ => false

/-- A list all of whose members are valid conditions. -/
def listAllValid (g : JVal) : Bool :=
  match g with
  | .arr ns => ns.all isValidCondition
  | _ => false

/-- The verdict of the validator on one member: a member with `field` and `operator` needs
an operator of the fixed set; any other member needs its `and` list (or, without `and`,
its `or` list) to be a list of valid conditions. -/
def acceptsMember (m : JVal) : Bool :=
  match getProp m "field", getProp m "operator", getProp m "and", getProp m "or" with
  | .ok f, .ok o, .ok a, .ok r =>
    if truthy f && truthy o then includes validOperators o
    else listAllValid (if truthy a then a else r)
  | _, _, _, _ => false

/-! ## What a result entry carries -/

/-- The result entry carries the document's columns unchanged. -/
def Carries (doc : JVal) (r : EnhancedResult) : Prop :=
  getProp doc "id" = .ok r.id ∧
  getProp doc "content" = .ok r.content ∧
  getProp doc "metadata" = .ok r.metadata ∧
  getProp doc "created_at" = .ok r.created_at ∧
  getProp doc "keyword_score" = .ok r.search_scores.keyword_score ∧
  getProp doc "keyword_rank" = .ok r.search_scores.keyword_rank ∧
  getProp doc "similarity_score" = .ok r.search_scores.similarity_score ∧
  getProp doc "semantic_rank" = .ok r.search_scores.semantic_rank ∧
  getProp doc "rrf_score" = .ok r.search_scores.rrf_score

/-! ## Sample requests and documents -/

/-- The request `{query: "", distance_method: "manhattan"}`. -/
def emptyQueryRequest : JVal :=
  .obj [("query", .str ""), ("distance_method", .str "manhattan")]

/-- The request `{query: "q", distance_method: {toString: 0}}`. -/
def unprintableMethodRequest : JVal :=
  .obj [("query", .str "q"), ("distance_method", .obj [("toString", .num 0)])]

/-- Six documents, numbered 1 to 6. -/
def sixDocuments : List JVal :=
  [.obj [("id", .num 1)], .obj [("id", .num 2)], .obj [("id", .num 3)],
   .obj [("id", .num 4)], .obj [("id", .num 5)], .obj [("id", .num 6)]]

/-- The request `{query: "pricing", filter: {}, match_count: 5}` of the spec's scenario. -/
def pricingRequest : JVal :=
  .obj [("query", .str "pricing"), ("filter", .obj []), ("match_count", .num 5)]

/-- Two documents with every column. -/
def twoDocuments : List JVal :=
  [.obj [("id", .num 1), ("content", .str "a"), ("metadata", .obj []),
         ("created_at", .str "2024-01-01"), ("keyword_score", .num 2), ("keyword_rank", .num 1),
         ("similarity_score", .null), ("semantic_rank", .null), ("rrf_score", .num 1)],
   .obj [("id", .num 2), ("content", .str "b")]]

/-! # Theorems -/

/-! ## Basic facts about property reads -/

theorem optProp_ok (v : JVal) (key : String) : ∃ w, optProp v key = .ok w := by
  cases v <;> simp [optProp, getProp]
  split <;> simp

theorem andThen_ok (f o : JVal) :
    ∃ v, andThen (.ok f) (.ok o) = .ok v ∧ truthy v = (truthy f && truthy o) := by
  cases h : truthy f <;> simp [andThen, h]

theorem getProp_ok_of_truthy (v : JVal) (key : String) (h : truthy v = true) :
    ∃ w, getProp v key = .ok w := by
  cases v <;> simp [truthy] at h <;> simp [getProp]
  split <;> simp

/-! ## Canonicalisation: totality, idempotence, legacy shape -/

theorem transform_canonical (a : List JVal) :
    transformFilterSchema (.obj [("filters", .arr a)]) = .ok (.obj [("filters", .arr a)]) := by
  simp [transformFilterSchema, truthy, getProp, lookupProp, optProp, orElse, isArray]

/-- What `transformFilterSchema` can return: the empty object, its argument (then truthy),
or a fresh `{filters: a}` with `a` an array. -/
theorem transform_cases (e : JVal) :
    transformFilterSchema e = .ok (.obj []) ∨
    (truthy e = true ∧ transformFilterSchema e = .ok e) ∨
    ∃ a, transformFilterSchema e = .ok (.obj [("filters", .arr a)]) := by
  by_cases ht : truthy e = true
  · obtain ⟨fs, hfs⟩ := getProp_ok_of_truthy e "filters" ht
    obtain ⟨legacy, hl⟩ := getProp_ok_of_truthy e "filter" ht
    obtain ⟨lf, hlf⟩ := optProp_ok legacy "filters"
    by_cases hf : truthy fs = true
    · by_cases hlt : truthy lf = true
      · cases lf <;> simp [transformFilterSchema, ht, hfs, hl, hlf, hf, hlt, orElse, isArray]
      · cases fs <;> simp [transformFilterSchema, ht, hfs, hl, hlf, hf, hlt, orElse, isArray]
    · right; left
      simp [transformFilterSchema, ht, hfs, hf]
  · left
    simp [transformFilterSchema, ht]

/-- C5. `transformFilterSchema` is total and idempotent: on every value it returns a
result (it never throws), and transforming that result again returns it unchanged. -/
theorem transformFilterSchema_total_idempotent (e : JVal) :
    ∃ r, transformFilterSchema e = .ok r ∧ transformFilterSchema r = .ok r := by
  rcases transform_cases e with h | ⟨_, h⟩ | ⟨a, h⟩
  · exact ⟨_, h, by simp [transformFilterSchema, truthy, getProp, lookupProp]⟩
  · exact ⟨e, h, h⟩
  · exact ⟨_, h, transform_canonical a⟩

/-- C2. On the pure legacy shape `{filter: {filters: s}}` the early return of line 65
fires (there is no top-level `filters`), so `transformFilterSchema` returns its argument
unchanged, while `{filters: s}` is returned as `{filters: s}`: the two results differ for
every `s`, and the legacy result has no `filters` property at all. -/
theorem transformFilterSchema_legacy_not_unwrapped (s : List JVal) :
    transformFilterSchema (legacyShape s) = .ok (legacyShape s) ∧
    transformFilterSchema (currentShape s) = .ok (currentShape s) ∧
    getProp (legacyShape s) "filters" = .ok .undefined ∧
    transformFilterSchema (legacyShape s) ≠ transformFilterSchema (currentShape s) := by
  have h1 : transformFilterSchema (legacyShape s) = .ok (legacyShape s) := by
    simp [transformFilterSchema, legacyShape, truthy, getProp, lookupProp]
  have h2 : transformFilterSchema (currentShape s) = .ok (currentShape s) :=
    transform_canonical s
  refine ⟨h1, h2, by simp [legacyShape, getProp, lookupProp], ?_⟩
  rw [h1, h2]
  simp [legacyShape, currentShape]

/-! ## Validation: what is rejected, what throws -/

/-- C1. The expression carrying both a top-level `filters` and a legacy `filter.filters`
is accepted by `validateFilterSchema`, which reads only the top-level list, while
`transformFilterSchema` prefers the legacy list: the canonical filter is
`{filters: [bogus]}`, which is not validated content, and the handler passes it to the
query engine. -/
theorem validated_filter_bypassed_by_legacy_list :
    validateFilterSchema bothShapes = .ok true ∧
    transformFilterSchema bothShapes = .ok (currentShape [bogusCondition]) ∧
    validatedContent (currentShape [bogusCondition]) = false ∧
    engineFilters (serve (engineReturning []) (requestWithFilter "q" bothShapes)).calls
      = [currentShape [bogusCondition]] := by
  refine ⟨rfl, rfl, rfl, rfl⟩

/-- C4. The expression `{filters: [{and: [null]}, {field: "status", operator: "bogus",
value: "x"}]}` has only objects at top level, one of them a condition with an unknown
operator, yet `validateFilterSchema` does not return false: reading `nested.field` on
the `null` inside the first group throws a TypeError, and the handler answers 500. -/
theorem validate_throws_before_unknown_operator :
    validateFilterSchema
      (currentShape [.obj [("and", .arr [.null])], bogusCondition]) = .error .typeError ∧
    validateFilterSchema (currentShape [bogusCondition]) = .ok false ∧
    (serve (engineReturning [])
      (requestWithFilter "q"
        (currentShape [.obj [("and", .arr [.null])], bogusCondition]))).response.status
      = 500 := by
  refine ⟨rfl, rfl, rfl⟩

/-- C7. A `null` member does not make `validateFilterSchema` return false: reading
`filterItem.field` (or `nested.field` inside a group) on `null` throws a TypeError, which
the handler turns into a 500 response with no collaborator call. Numbers, strings,
arrays and objects with none of the four properties are rejected with `false`. -/
theorem validate_throws_on_null_member (c : Collaborators) :
    validateFilterSchema (currentShape [.null]) = .error .typeError ∧
    validateFilterSchema (currentShape [.obj [("or", .arr [.null])]]) = .error .typeError ∧
    (serve c (requestWithFilter "q" (currentShape [.null]))).response
      = internalServerError .typeError ∧
    (serve c (requestWithFilter "q" (currentShape [.null]))).calls = [] ∧
    validateFilterSchema (currentShape [.num 5]) = .ok false ∧
    validateFilterSchema (currentShape [.str "x"]) = .ok false ∧
    validateFilterSchema (currentShape [.arr []]) = .ok false ∧
    validateFilterSchema (currentShape [.obj []]) = .ok false := by
  refine ⟨rfl, rfl, rfl, rfl, rfl, rfl, rfl, rfl⟩

/-! ## Groups carrying both `and` and `or` -/

theorem validateItems_cons_congr (p : JVal) (r₁ r₂ : List JVal)
    (h : validateItems r₁ = validateItems r₂) :
    validateItems (p :: r₁) = validateItems (p :: r₂) := by
  simp only [validateItems, h]

/-- The verdict of the outer loop on `pre ++ r` depends on `r` only through the verdict
of the loop started at `r`. -/
theorem validateItems_append_congr (pre r₁ r₂ : List JVal)
    (h : validateItems r₁ = validateItems r₂) :
    validateItems (pre ++ r₁) = validateItems (pre ++ r₂) := by
  induction pre with
  | nil => simpa using h
  | cons p pre ih =>
    rw [List.cons_append, List.cons_append]
    exact validateItems_cons_congr p _ _ ih

/-- C3, counterexample. The expression `{filters: [{and: [ok], or: [ok]}]}` contains a
group member carrying both an `and` list and an `or` list, and `validateFilterSchema`
returns true for it. -/
theorem validate_accepts_group_with_both_lists :
    getProp bothListsGroup "and" = .ok (.arr [okCondition]) ∧
    getProp bothListsGroup "or" = .ok (.arr [okCondition]) ∧
    validateFilterSchema (currentShape [bothListsGroup]) = .ok true ∧
    validateFilterSchema (currentShape [bothListsGroup]) ≠ .ok false := by
  refine ⟨rfl, rfl, rfl, ?_⟩
  intro h
  have h2 : validateFilterSchema (currentShape [bothListsGroup]) = .ok true := rfl
  rw [h2] at h
  cases h

/-! ## Well-formed expressions of the data model -/

theorem okCondition_isFilterCondition : IsFilterCondition okCondition :=
  ⟨_, "status", "eq", rfl, rfl, by decide, rfl, by decide⟩

theorem includes_of_mem (o : String) (h : o ∈ validOperators) :
    includes validOperators (.str o) = true := by
  simp [includes, h]

theorem truthy_str_of_ne (f : String) (h : f ≠ "") : truthy (.str f) = true := by
  simp [truthy, h]

theorem truthy_operator_of_mem (o : String) (h : o ∈ validOperators) :
    truthy (.str o) = true := by
  apply truthy_str_of_ne
  rintro rfl
  revert h
  decide

theorem validateNested_conditions (ms : List JVal) (h : ∀ m ∈ ms, IsFilterCondition m) :
    validateNested ms = .ok true := by
  induction ms with
  | nil => rfl
  | cons m ms ih =>
    obtain ⟨props, f, o, rfl, hf, hne, ho, hmem⟩ := h m (List.mem_cons_self _ _)
    have ih2 := ih fun x hx => h x (List.mem_cons_of_mem _ hx)
    simp [validateNested, getProp, hf, ho, truthy_str_of_ne f hne,
      truthy_operator_of_mem o hmem, includes_of_mem o hmem, ih2]

theorem validateItems_flat (s : List JVal)
    (h : ∀ m ∈ s, IsFilterCondition m ∨ IsGroupOf IsFilterCondition m) :
    validateItems s = .ok true := by
  induction s with
  | nil => rfl
  | cons m s ih =>
    have ih2 := ih fun x hx => h x (List.mem_cons_of_mem _ hx)
    rcases h m (List.mem_cons_self _ _) with hc | hg
    · obtain ⟨props, f, o, rfl, hf, hne, ho, hmem⟩ := hc
      simp [validateItems, getProp, andThen, hf, ho, truthy_str_of_ne f hne,
        truthy_operator_of_mem o hmem, includes_of_mem o hmem, ih2]
    · obtain ⟨props, ms, rfl, hf, ho, hlist, hms⟩ := hg
      have hn := validateNested_conditions ms hms
      rcases hlist with ⟨ha, hr⟩ | ⟨hr, ha⟩
      · simp [validateItems, getProp, andThen, orElse, hf, ho, ha, hr, truthy, hn, ih2]
      · simp [validateItems, getProp, andThen, orElse, hf, ho, ha, hr, truthy, hn, ih2]

theorem isValidCondition_of_isFilterCondition (m : JVal) (h : IsFilterCondition m) :
    isValidCondition m = true := by
  obtain ⟨props, f, o, rfl, hf, hne, ho, hmem⟩ := h
  simp [isValidCondition, getProp, hf, ho, truthy_str_of_ne f hne, includes_of_mem o hmem]

/-- C3, amended. Carrying both an `and` list and an `or` list is not a reason for
rejection: a group member (an object without a truthy `field`/`operator` pair) whose
`and` list and `or` list both consist of `FilterCondition`s is accepted like a group with
one list, so `validateFilterSchema` gives the expression the verdict of its other
members, and the member is validated content (both lists hold valid conditions). -/
theorem validate_accepts_group_with_two_valid_lists (pre post : List JVal)
    (props : List (String × JVal)) (andList orList : List JVal)
    (hcond : (truthy (lookupProp props "field") && truthy (lookupProp props "operator"))
      = false)
    (hand : lookupProp props "and" = .arr andList)
    (hor : lookupProp props "or" = .arr orList)
    (handValid : ∀ m ∈ andList, IsFilterCondition m)
    (horValid : ∀ m ∈ orList, IsFilterCondition m) :
    validateFilterSchema (currentShape (pre ++ .obj props :: post)) =
      validateFilterSchema (currentShape (pre ++ post)) ∧
    isValidGroup (.obj props) = true := by
  constructor
  · have hitem : validateItems (.obj props :: post) = validateItems post := by
      obtain ⟨v, hv, htv⟩ :=
        andThen_ok (lookupProp props "field") (lookupProp props "operator")
      rw [hcond] at htv
      have hn := validateNested_conditions andList handValid
      simp only [validateItems, getProp, hv, htv, orElse, hand]
      simp [truthy, hn]
    have := validateItems_append_congr pre _ _ hitem
    simp [validateFilterSchema, currentShape, truthy, typeofObject, getProp, lookupProp,
      isArray, this]
  · have h1 : andList.all isValidCondition = true :=
      List.all_eq_true.mpr fun m hm => isValidCondition_of_isFilterCondition m (handValid m hm)
    have h2 : orList.all isValidCondition = true :=
      List.all_eq_true.mpr fun m hm => isValidCondition_of_isFilterCondition m (horValid m hm)
    simp [isValidGroup, getProp, hand, hor, truthy, listOfValidConditions, h1, h2]

/-- Witness for C3, amended: after a valid condition, the group `{and: [ok], or: [ok]}`
is accepted and the expression has the verdict of `{filters: [ok]}`. -/
theorem validate_accepts_group_with_two_valid_lists_witness :
    (truthy (lookupProp [("and", JVal.arr [okCondition]), ("or", JVal.arr [okCondition])]
        "field") &&
      truthy (lookupProp [("and", JVal.arr [okCondition]), ("or", JVal.arr [okCondition])]
        "operator")) = false ∧
    (∀ m ∈ [okCondition], IsFilterCondition m) ∧
    validateFilterSchema (currentShape ([okCondition] ++
        .obj [("and", .arr [okCondition]), ("or", .arr [okCondition])] :: [])) =
      validateFilterSchema (currentShape ([okCondition] ++ [])) ∧
    isValidGroup (.obj [("and", .arr [okCondition]), ("or", .arr [okCondition])]) = true :=
  have hok : ∀ m ∈ [okCondition], IsFilterCondition m := by
    intro m hm
    simp only [List.mem_singleton] at hm
    subst hm
    exact okCondition_isFilterCondition
  ⟨rfl, hok, validate_accepts_group_with_two_valid_lists [okCondition] []
    [("and", .arr [okCondition]), ("or", .arr [okCondition])] [okCondition] [okCondition]
    rfl rfl rfl hok hok⟩

/-- C6, counterexample. The expression `{filters: [{and: [{or: [ok]}]}]}` is a well-formed
`FilterExpression` of the data model (a group inside a group), and
`validateFilterSchema` returns false for it. -/
theorem validate_rejects_nested_group :
    WellFormedExpression nestedGroups ∧ validateFilterSchema nestedGroups = .ok false := by
  refine ⟨Or.inr ⟨_, rfl, ?_⟩, rfl⟩
  intro m hm
  simp only [List.mem_singleton] at hm
  subst hm
  refine WellFormedMember.andGroup _ [.obj [("or", .arr [okCondition])]] rfl rfl rfl rfl ?_
  intro m hm
  simp only [List.mem_singleton] at hm
  subst hm
  refine WellFormedMember.orGroup _ [okCondition] rfl rfl rfl rfl ?_
  intro m hm
  simp only [List.mem_singleton] at hm
  subst hm
  exact WellFormedMember.condition _ okCondition_isFilterCondition

/-- C6, amended. `validateFilterSchema` returns true for the empty expression `{}` and
for every `{filters: s}` each of whose members is a `FilterCondition` or a `FilterGroup`
with exactly one of `and`/`or` whose members are all `FilterCondition`s (the member list
may be empty). -/
theorem validate_accepts_flat_expression (e : JVal) (h : FlatExpression e) :
    validateFilterSchema e = .ok true := by
  rcases h with rfl | ⟨s, rfl, hs⟩
  · rfl
  · simp [validateFilterSchema, currentShape, truthy, typeofObject, getProp, lookupProp,
      isArray, validateItems_flat s hs]

/-- Witness for C6, amended: a condition, an `or` group of one condition and an empty `and`
group. -/
theorem validate_accepts_flat_expression_witness :
    FlatExpression (currentShape [okCondition, .obj [("or", .arr [okCondition])],
      .obj [("and", .arr [])]]) ∧
    validateFilterSchema (currentShape [okCondition, .obj [("or", .arr [okCondition])],
      .obj [("and", .arr [])]]) = .ok true :=
  have hflat : FlatExpression (currentShape [okCondition, .obj [("or", .arr [okCondition])],
      .obj [("and", .arr [])]]) := by
    refine Or.inr ⟨_, rfl, ?_⟩
    intro m hm
    simp only [List.mem_cons, List.mem_singleton, List.not_mem_nil, or_false] at hm
    rcases hm with rfl | rfl | rfl
    · exact Or.inl okCondition_isFilterCondition
    · refine Or.inr ⟨_, [okCondition], rfl, rfl, rfl, Or.inr ⟨rfl, rfl⟩, ?_⟩
      intro m hm
      simp only [List.mem_singleton] at hm
      subst hm
      exact okCondition_isFilterCondition
    · refine Or.inr ⟨_, [], rfl, rfl, rfl, Or.inl ⟨rfl, rfl⟩, ?_⟩
      intro m hm
      cases hm
  ⟨hflat, validate_accepts_flat_expression _ hflat⟩

/-! ## Validation without `null` members -/

theorem getProp_ok_of_nonNullish (v : JVal) (key : String) (h : nonNullish v = true) :
    ∃ w, getProp v key = .ok w := by
  cases v <;> simp [nonNullish] at h <;> simp [getProp]
  split <;> simp

theorem truthy_of_includes (o : JVal) (h : includes validOperators o = true) :
    truthy o = true := by
  cases o <;> simp [includes] at h
  exact truthy_operator_of_mem _ h

theorem validateNested_nullFree (ns : List JVal) (h : ns.all nonNullish = true) :
    validateNested ns = .ok (ns.all isValidCondition) := by
  induction ns with
  | nil => rfl
  | cons n ns ih =>
    simp only [List.all_cons, Bool.and_eq_true] at h
    obtain ⟨f, hf⟩ := getProp_ok_of_nonNullish n "field" h.1
    obtain ⟨o, ho⟩ := getProp_ok_of_nonNullish n "operator" h.1
    have ih2 := ih h.2
    cases htf : truthy f
    · simp [validateNested, isValidCondition, hf, ho, htf]
    · cases hinc : includes validOperators o
      · cases hto : truthy o <;>
          simp [validateNested, isValidCondition, hf, ho, htf, hto, hinc]
      · have hto := truthy_of_includes o hinc
        simp [validateNested, isValidCondition, hf, ho, htf, hto, hinc, ih2]

/-- On a sequence without `null` members (at top level and inside the `and`/`or` lists)
the validator never throws, and it returns true exactly when every member is accepted. -/
theorem orElse_ok (a r : JVal) :
    orElse (.ok a) (.ok r) = .ok (if truthy a then a else r) := by
  cases h : truthy a <;> simp [orElse, h]

/-- The group branch of the outer loop, once the iterated value is known. -/
theorem group_branch (g : JVal) (rest : List JVal) (b : Bool)
    (hg : listNullFree g = true) (hrest : validateItems rest = .ok b) :
    (if truthy g = true then
      match g with
      | .arr ns =>
        match validateNested ns with
        | .error e => Except.error e
        | .ok false => Except.ok false
        | .ok true => validateItems rest
      | _ => Except.ok false
    else Except.ok false) =
    Except.ok (listAllValid g && b) := by
  cases g <;> simp [listAllValid]
  next ns =>
    have hn := validateNested_nullFree ns (by simpa [listNullFree] using hg)
    cases hall : ns.all isValidCondition <;> rw [hall] at hn <;> simp [hn, truthy, hrest]

/-- On a sequence without `null` members (at top level and inside the `and`/`or` lists)
the validator never throws, and it returns true exactly when every member is accepted. -/
theorem validateItems_nullFree (items : List JVal)
    (h : ∀ m ∈ items, nullFree m = true) :
    validateItems items = .ok (items.all acceptsMember) := by
  induction items with
  | nil => rfl
  | cons m items ih =>
    have ih2 := ih fun x hx => h x (List.mem_cons_of_mem _ hx)
    have hm := h m (List.mem_cons_self _ _)
    have hnn : nonNullish m = true := by
      cases m <;> simp [nullFree, getProp] at hm <;> rfl
    obtain ⟨f, hf⟩ := getProp_ok_of_nonNullish m "field" hnn
    obtain ⟨o, ho⟩ := getProp_ok_of_nonNullish m "operator" hnn
    obtain ⟨a, ha⟩ := getProp_ok_of_nonNullish m "and" hnn
    obtain ⟨r, hr⟩ := getProp_ok_of_nonNullish m "or" hnn
    obtain ⟨v, hv, htv⟩ := andThen_ok f o
    simp only [nullFree, ha, hr, Bool.and_eq_true] at hm
    have hg : listNullFree (if truthy a = true then a else r) = true := by
      split
      · exact hm.1
      · exact hm.2
    cases hc : (truthy f && truthy o)
    · rw [hc] at htv
      have hbranch := group_branch _ items _ hg ih2
      simp only [validateItems, hf, ho, ha, hr, hv, htv, orElse_ok, List.all_cons,
        acceptsMember, hc]
      simpa using hbranch
    · rw [hc] at htv
      cases hinc : includes validOperators o <;>
        simp [validateItems, acceptsMember, hf, ho, ha, hr, hv, htv, hc, hinc, ih2]

/-- Without `null` members `validateFilterSchema` returns a boolean on `{filters: s}`:
true exactly when `acceptsMember` holds of every member. -/
theorem validateFilterSchema_nullFree (s : List JVal) (h : ∀ m ∈ s, nullFree m = true) :
    validateFilterSchema (currentShape s) = .ok (s.all acceptsMember) := by
  simp [validateFilterSchema, currentShape, truthy, typeofObject, getProp, lookupProp,
    isArray, validateItems_nullFree s h]

/-! ## The request handler: validation order -/

theorem readParams_ok (body : JVal) (hn : body ≠ .null) (hu : body ≠ .undefined) :
    ∃ p, readParams body = .ok p ∧ getProp body "query" = .ok p.query := by
  cases body <;>
    simp [readParams, getProp, bind, Except.bind, pure, Except.pure] at hn hu ⊢

/-- What holds of the validation order for every body other than `null`, with `p` the
destructured parameters: a falsy `query` is answered 400 `MissingQuery`; otherwise a
`distance_method` outside the three methods is answered 400 `InvalidDistanceMethod` when
its string conversion succeeds and 500 when that conversion throws; otherwise a filter
on which `validateFilterSchema` returns false is answered 400 `InvalidFilter`; none of
these cases calls a collaborator, and a collaborator is called only when all three
checks pass. -/
theorem serve_validation_order (c : Collaborators) (body : JVal)
    (hn : body ≠ .null) (hu : body ≠ .undefined) :
    ∃ p, readParams body = .ok p ∧ getProp body "query" = .ok p.query ∧
      (truthy p.query = false →
        (serve c body).response = badRequest .missingQuery ∧ (serve c body).calls = []) ∧
      (truthy p.query = true → includes validDistanceMethods p.distance_method = false →
        (serve c body).calls = [] ∧
        (toStringThrows p.distance_method = false →
          (serve c body).response
            = badRequest (.invalidDistanceMethod p.distance_method)) ∧
        (toStringThrows p.distance_method = true →
          (serve c body).response = internalServerError .typeError)) ∧
      (truthy p.query = true → includes validDistanceMethods p.distance_method = true →
        validateFilterSchema p.metadata_filter = .ok false →
        (serve c body).response = badRequest .invalidFilter ∧ (serve c body).calls = []) ∧
      ((serve c body).calls ≠ [] →
        truthy p.query = true ∧ includes validDistanceMethods p.distance_method = true ∧
        validateFilterSchema p.metadata_filter = .ok true) := by
  obtain ⟨p, hp, hq⟩ := readParams_ok body hn hu
  refine ⟨p, hp, hq, ?_, ?_, ?_, ?_⟩
  · intro h
    simp [serve, hp, h]
  · intro h1 h2
    refine ⟨?_, ?_, ?_⟩
    · by_cases h2t : toStringThrows p.distance_method = true <;>
        simp [serve, hp, h1, h2, h2t]
    · intro h2t
      simp [serve, hp, h1, h2, h2t]
    · intro h2t
      simp [serve, hp, h1, h2, h2t]
  · intro h1 h2 h3
    simp [serve, hp, h1, h2, h3]
  · intro hcalls
    cases h1 : truthy p.query
    · simp [serve, hp, h1] at hcalls
    · cases h2 : includes validDistanceMethods p.distance_method
      · by_cases h2t : toStringThrows p.distance_method = true <;>
          simp [serve, hp, h1, h2, h2t] at hcalls
      · cases h3 : validateFilterSchema p.metadata_filter with
        | error e => simp [serve, hp, h1, h2, h3] at hcalls
        | ok b =>
          cases b
          · simp [serve, hp, h1, h2, h3] at hcalls
          · simp

/-- C8. The handler does not always answer 400 in the order of the claim. For the body
`{query: "q", distance_method: {toString: 0}}` the `distance_method` is not one of the
three methods, yet building the message of line 106 throws on its string conversion and
the catch-all answers 500 instead of 400 `InvalidDistanceMethod`; for the body `null`
the destructuring of line 83 throws and the answer is 500 instead of 400 `MissingQuery`.
No collaborator is called in either case. The spec's scenarios (`query` empty,
`distance_method` "manhattan") are answered 400 as claimed. -/
theorem serve_answers_500_during_validation (c : Collaborators) :
    includes validDistanceMethods (.obj [("toString", .num 0)]) = false ∧
    (serve c unprintableMethodRequest).response = internalServerError .typeError ∧
    (serve c unprintableMethodRequest).response.status = 500 ∧
    (serve c unprintableMethodRequest).calls = [] ∧
    (serve c .null).response = internalServerError .typeError ∧
    (serve c .null).calls = [] ∧
    (serve c emptyQueryRequest).response = badRequest .missingQuery ∧
    (serve c (.obj [("query", .str "q"), ("distance_method", .str "manhattan")])).response
      = badRequest (.invalidDistanceMethod (.str "manhattan")) := by
  refine ⟨rfl, rfl, rfl, rfl, rfl, rfl, rfl, rfl⟩

/-! ## The request handler: result shaping -/

theorem enhance_ok (doc : JVal) (hn : doc ≠ .null) (hu : doc ≠ .undefined) :
    ∃ r, enhance doc = .ok r ∧ Carries doc r := by
  cases doc <;>
    simp [enhance, Carries, getProp, bind, Except.bind, pure, Except.pure] at hn hu ⊢

theorem enhance_carries (doc : JVal) (r : EnhancedResult) (h : enhance doc = .ok r) :
    Carries doc r := by
  cases doc <;>
    simp [enhance, getProp, bind, Except.bind, pure, Except.pure] at h <;>
    subst h <;> simp [Carries, getProp]

theorem enhanceEach_ok (docs : List JVal)
    (h : ∀ d ∈ docs, d ≠ .null ∧ d ≠ .undefined) :
    ∃ rs, enhanceEach docs = .ok rs := by
  induction docs with
  | nil => exact ⟨[], rfl⟩
  | cons d docs ih =>
    obtain ⟨r, hr, _⟩ := enhance_ok d (h d (List.mem_cons_self _ _)).1
      (h d (List.mem_cons_self _ _)).2
    obtain ⟨rs, hrs⟩ := ih fun x hx => h x (List.mem_cons_of_mem _ hx)
    exact ⟨r :: rs, by simp [enhanceEach, hr, hrs]⟩

theorem enhanceEach_carries (docs : List JVal) (rs : List EnhancedResult)
    (h : enhanceEach docs = .ok rs) : List.Forall₂ Carries docs rs := by
  induction docs generalizing rs with
  | nil =>
    simp [enhanceEach] at h
    subst h
    exact List.Forall₂.nil
  | cons d docs ih =>
    cases hd : enhance d with
    | error e => simp [enhanceEach, hd] at h
    | ok r =>
      cases hrest : enhanceEach docs with
      | error e => simp [enhanceEach, hd, hrest] at h
      | ok rest =>
        simp [enhanceEach, hd, hrest] at h
        subst h
        exact List.Forall₂.cons (enhance_carries d r hd) (ih rest hrest)

theorem hasOwnKeys_transform (e r : JVal) (h : transformFilterSchema e = .ok r) :
    ∃ b, hasOwnKeys r = .ok b := by
  rcases transform_cases e with h1 | ⟨ht, h1⟩ | ⟨a, h1⟩ <;> rw [h1] at h <;>
    injection h with h <;> subst h
  · exact ⟨_, rfl⟩
  · cases e <;> simp [truthy] at ht <;> exact ⟨_, rfl⟩
  · exact ⟨_, rfl⟩

/-- What the handler does once the query engine has been called with `args`: the call is
the one built from the validated parameters, and the response is decided by the engine's
answer alone. -/
theorem serve_after_engine_call (c : Collaborators) (body : JVal) (args : RpcArgs)
    (hcall : Call.rpc args ∈ (serve c body).calls) :
    ∃ p tf, readParams body = .ok p ∧ transformFilterSchema p.metadata_filter = .ok tf ∧
      args.match_count = p.match_count ∧ args.metadata_filter = tf ∧
      (truthy (c.rpc args).error = false →
        ∀ rs, enhanceAll (c.rpc args).data = .ok rs →
          ∃ b, (serve c body).response =
            { status := 200, payload := .success rs (echoParams p tf) (summarise p rs b) }) := by
  cases hp : readParams body with
  | error e => simp [serve, hp] at hcall
  | ok p =>
    cases h1 : truthy p.query
    · simp [serve, hp, h1] at hcall
    cases h2 : includes validDistanceMethods p.distance_method
    · by_cases h2t : toStringThrows p.distance_method = true <;>
        simp [serve, hp, h1, h2, h2t] at hcall
    cases h3 : validateFilterSchema p.metadata_filter with
    | error e => simp [serve, hp, h1, h2, h3] at hcall
    | ok v =>
      cases v
      · simp [serve, hp, h1, h2, h3] at hcall
      cases h4 : transformFilterSchema p.metadata_filter with
      | error e => simp [serve, hp, h1, h2, h3, h4] at hcall
      | ok tf =>
        obtain ⟨b, hb⟩ := hasOwnKeys_transform _ _ h4
        cases h5 : (c.embeddingsCreate p.query).bind firstEmbedding with
        | error e => simp [serve, hp, h1, h2, h3, h4, h5] at hcall
        | ok emb =>
          have hargs : args = rpcArgs p emb tf := by
            cases h6 : truthy (c.rpc (rpcArgs p emb tf)).error
            · cases h7 : enhanceAll (c.rpc (rpcArgs p emb tf)).data <;>
                simpa [serve, hp, h1, h2, h3, h4, h5, h6, h7, hb] using hcall
            · cases h7 : getProp (c.rpc (rpcArgs p emb tf)).error "message" <;>
                simpa [serve, hp, h1, h2, h3, h4, h5, h6, h7] using hcall
          subst hargs
          refine ⟨p, tf, rfl, h4, rfl, rfl, ?_⟩
          intro herr rs hrs
          exact ⟨b, by simp [serve, hp, h1, h2, h3, h4, h5, herr, hrs, hb]⟩

theorem enhanceAll_inv (data : JVal) (rs : List EnhancedResult)
    (h : enhanceAll data = .ok rs) : ∃ docs, data = .arr docs ∧ enhanceEach docs = .ok rs := by
  cases data <;> simp [enhanceAll] at h
  exact ⟨_, rfl, h⟩

/-- A successful response comes from exactly one embedding call and one query-engine
call, and its `results` are the shaped answer of that engine call. -/
theorem serve_success_inv (c : Collaborators) (body : JVal) (rs : List EnhancedResult)
    (sp : EchoParams) (sm : Summary)
    (hs : (serve c body).response.payload = .success rs sp sm) :
    ∃ p tf emb b, readParams body = .ok p ∧
      (serve c body).calls = [.embedding p.query, .rpc (rpcArgs p emb tf)] ∧
      enhanceAll (c.rpc (rpcArgs p emb tf)).data = .ok rs ∧
      sp = echoParams p tf ∧ sm = summarise p rs b := by
  cases hp : readParams body with
  | error e => simp [serve, hp, internalServerError] at hs
  | ok p =>
    cases h1 : truthy p.query
    · simp [serve, hp, h1, badRequest] at hs
    cases h2 : includes validDistanceMethods p.distance_method
    · by_cases h2t : toStringThrows p.distance_method = true <;>
        simp [serve, hp, h1, h2, h2t, badRequest, internalServerError] at hs
    cases h3 : validateFilterSchema p.metadata_filter with
    | error e => simp [serve, hp, h1, h2, h3, internalServerError] at hs
    | ok v =>
      cases v
      · simp [serve, hp, h1, h2, h3, badRequest] at hs
      cases h4 : transformFilterSchema p.metadata_filter with
      | error e => simp [serve, hp, h1, h2, h3, h4, internalServerError] at hs
      | ok tf =>
        obtain ⟨b, hb⟩ := hasOwnKeys_transform _ _ h4
        cases h5 : (c.embeddingsCreate p.query).bind firstEmbedding with
        | error e => simp [serve, hp, h1, h2, h3, h4, h5, internalServerError] at hs
        | ok emb =>
          cases h6 : truthy (c.rpc (rpcArgs p emb tf)).error
          · cases h7 : enhanceAll (c.rpc (rpcArgs p emb tf)).data with
            | error e =>
              simp [serve, hp, h1, h2, h3, h4, h5, h6, h7, hb, internalServerError] at hs
            | ok rs2 =>
              simp [serve, hp, h1, h2, h3, h4, h5, h6, h7, hb] at hs
              obtain ⟨hrs, hsp, hsm⟩ := hs
              subst hrs
              refine ⟨p, tf, emb, b, rfl, ?_, h7, hsp.symm, hsm.symm⟩
              simp [serve, hp, h1, h2, h3, h4, h5, h6, h7, hb]
          · cases h7 : getProp (c.rpc (rpcArgs p emb tf)).error "message" <;>
              simp [serve, hp, h1, h2, h3, h4, h5, h6, h7, internalServerError] at hs

/-! ## The request handler: `match_count` and the length of `results` -/

/-- C9, counterexample. For the request `{query: "pricing", filter: {}, match_count: 5}`
and a query engine that returns six documents, the request succeeds with effective
`match_count` 5 and its `results` array has six entries. -/
theorem results_exceed_match_count :
    ∃ rs sp sm,
      (serve (engineReturning sixDocuments) pricingRequest).response
        = { status := 200, payload := .success rs sp sm } ∧
      sp.match_count = .num 5 ∧ rs.length = 6 ∧ ¬ rs.length ≤ 5 :=
  ⟨_, _, _, rfl, rfl, rfl, by decide⟩

/-- C9, amended. For every request that succeeds with effective `match_count` = n, the
`results` array has exactly as many entries as the list of documents the query engine
returned for the handler's call (made with that `match_count`); so it has at most n
entries whenever the engine returned at most n documents. -/
theorem results_count_is_engine_count (c : Collaborators) (body : JVal)
    (rs : List EnhancedResult) (sp : EchoParams) (sm : Summary) (n : Nat)
    (hs : (serve c body).response.payload = .success rs sp sm)
    (hn : sp.match_count = .num n) :
    ∃ args docs, Call.rpc args ∈ (serve c body).calls ∧ args.match_count = .num n ∧
      (c.rpc args).data = .arr docs ∧ rs.length = docs.length ∧
      (docs.length ≤ n → rs.length ≤ n) := by
  obtain ⟨p, tf, emb, b, _, hcalls, hall, hsp, _⟩ := serve_success_inv c body rs sp sm hs
  obtain ⟨docs, hdata, heach⟩ := enhanceAll_inv _ _ hall
  have hlen : rs.length = docs.length := (enhanceEach_carries docs rs heach).length_eq.symm
  refine ⟨rpcArgs p emb tf, docs, ?_, ?_, hdata, hlen, fun h => hlen ▸ h⟩
  · rw [hcalls]; simp
  · rw [hsp] at hn; exact hn

/-- Witness for C9, amended: `match_count` 5 and an engine returning two documents. -/
theorem results_count_is_engine_count_witness :
    ∃ rs sp sm,
      (serve (engineReturning twoDocuments) pricingRequest).response.payload
        = .success rs sp sm ∧
      sp.match_count = .num (5 : Nat) ∧
      ∃ args docs, Call.rpc args ∈ (serve (engineReturning twoDocuments) pricingRequest).calls ∧
        args.match_count = .num (5 : Nat) ∧
        ((engineReturning twoDocuments).rpc args).data = .arr docs ∧
        rs.length = docs.length ∧ (docs.length ≤ 5 → rs.length ≤ 5) :=
  ⟨_, _, _, rfl, rfl,
    results_count_is_engine_count (engineReturning twoDocuments) pricingRequest _ _ _ 5 rfl rfl⟩

/-! ## The request handler: the engine's list is preserved -/

/-- C10. For every list of documents the query engine returns without error to the
handler's call, the response is a 200 whose `results` has the same length as the list,
whose i-th entry carries the i-th document's id, content, metadata, created_at,
keyword_score, keyword_rank, similarity_score, semantic_rank and rrf_score unchanged, in
the same order, and whose `summary.total_results` is that length. -/
theorem serve_preserves_engine_list (c : Collaborators) (body : JVal) (args : RpcArgs)
    (docs : List JVal)
    (hcall : Call.rpc args ∈ (serve c body).calls)
    (hdata : (c.rpc args).data = .arr docs)
    (herr : truthy (c.rpc args).error = false)
    (hdocs : ∀ d ∈ docs, d ≠ .null ∧ d ≠ .undefined) :
    ∃ rs sp sm,
      (serve c body).response = { status := 200, payload := .success rs sp sm } ∧
      rs.length = docs.length ∧ List.Forall₂ Carries docs rs ∧
      sm.total_results = docs.length := by
  obtain ⟨p, tf, _, _, _, _, hresp⟩ := serve_after_engine_call c body args hcall
  obtain ⟨rs, hrs⟩ := enhanceEach_ok docs hdocs
  have hall : enhanceAll (c.rpc args).data = .ok rs := by rw [hdata]; exact hrs
  obtain ⟨b, hb⟩ := hresp herr rs hall
  have hcar := enhanceEach_carries docs rs hrs
  refine ⟨rs, _, _, hb, hcar.length_eq.symm, hcar, ?_⟩
  simp [summarise, hcar.length_eq]

/-- Witness for C10: the scenario request against an engine returning two documents. -/
theorem serve_preserves_engine_list_witness :
    ∃ args rs sp sm,
      Call.rpc args ∈ (serve (engineReturning twoDocuments) pricingRequest).calls ∧
      ((engineReturning twoDocuments).rpc args).data = .arr twoDocuments ∧
      truthy ((engineReturning twoDocuments).rpc args).error = false ∧
      (∀ d ∈ twoDocuments, d ≠ .null ∧ d ≠ .undefined) ∧
      (serve (engineReturning twoDocuments) pricingRequest).response
        = { status := 200, payload := .success rs sp sm } ∧
      rs.length = twoDocuments.length ∧ List.Forall₂ Carries twoDocuments rs ∧
      sm.total_results = twoDocuments.length := by
  have hcall : Call.rpc (rpcArgs
      { query := .str "pricing", metadata_filter := .obj [], match_count := .num 5,
        full_text_weight := .num 1, semantic_weight := .num 1, rrf_k := .num 50,
        distance_method := .str "cosine" } (.arr []) (.obj []))
      ∈ (serve (engineReturning twoDocuments) pricingRequest).calls := by
    have h : (serve (engineReturning twoDocuments) pricingRequest).calls =
        [.embedding (.str "pricing"), .rpc (rpcArgs
          { query := .str "pricing", metadata_filter := .obj [], match_count := .num 5,
            full_text_weight := .num 1, semantic_weight := .num 1, rrf_k := .num 50,
            distance_method := .str "cosine" } (.arr []) (.obj []))] := rfl
    rw [h]
    simp
  have hdocs : ∀ d ∈ twoDocuments, d ≠ JVal.null ∧ d ≠ JVal.undefined := by
    intro d hd
    simp only [twoDocuments, List.mem_cons, List.mem_singleton, List.not_mem_nil,
      or_false] at hd
    rcases hd with rfl | rfl <;> exact ⟨(by intro h; cases h), (by intro h; cases h)⟩
  obtain ⟨rs, sp, sm, h⟩ := serve_preserves_engine_list (engineReturning twoDocuments)
    pricingRequest _ twoDocuments hcall rfl rfl hdocs
  exact ⟨_, rs, sp, sm, hcall, rfl, rfl, hdocs, h⟩

end HybridSearch
